import Mathlib

set_option maxRecDepth 10000

/-!
Shallow embedding of `src/rust_core/src/lib.rs` (the `llamaquest_core`
Rust module): `calculate_pathfinding`, `collision_detection`, and the
`PhysicsEngine` class (`update_entity`, `calculate_projectile_path`).

Modelling conventions:
* Rust `usize` becomes `Nat`, `isize` becomes `Int` (the source never
  overflows the values used in any statement below).
* Rust `f32` arithmetic is modelled as exact arithmetic on `ℚ`; every
  concrete evaluation below uses only values on which `f32` arithmetic
  is itself exact (small integers, and no rounding-sensitive claims).
* `PyResult<T>` becomes `Except PyErr T`.  The source constructs no
  error value on any code path, so every result is `Except.ok`.
* Rust panics on `Vec` indexing cannot occur in the paths exercised by
  the theorems below: `walkable_map[0]` is modelled as `headD []` and
  `walkable_map[y][x]` as nested `getD` with default `false` (the
  source only performs that access after its own bounds check; on a
  ragged or empty grid, where the source would panic and return
  nothing, the model simply stops the walk).
-/

/-- Modelled from the spec: the error taxonomy of spec §7
(`InvalidCoordinate`, `UnwalkableEndpoint`, `NoPathFound`,
`SearchBudgetExceeded`, `MalformedGrid`, `InvalidParameter`).  The
source returns `PyResult` but constructs no error on any code path;
these constructors exist only so that "returns an error" is statable. -/
inductive PyErr where
  | invalidCoordinate
  | unwalkableEndpoint
  | noPathFound
  | searchBudgetExceeded
  | malformedGrid
  | invalidParameter
deriving DecidableEq

deriving instance DecidableEq for Except

/-- `walkable_map[0].len()` of the source (the width used by its bounds
check).  The source panics on an empty map; the model yields `0`. -/
def widthOf (g : List (List Bool)) : Nat := (g.headD []).length

/-- `walkable_map[current_y][current_x]` of the source, with default
`false` where the source would panic (ragged rows). -/
def walkableAt (g : List (List Bool)) (x y : Nat) : Bool :=
  (g.getD y []).getD x false

/-- The `for _ in 0..steps` loop of `calculate_pathfinding`
(src/rust_core/src/lib.rs:36-63): break when the current cell equals
the end; otherwise step each coordinate that has not reached its
target by `dx`/`dy`; break on the boundary check or on an unwalkable
cell; otherwise push the new cell and continue. -/
def pathLoop (g : List (List Bool)) (ex ey dx dy : Int) :
    Nat → Int → Int → List (Nat × Nat) → List (Nat × Nat)
  | 0, _, _, path => path
  | n + 1, cx, cy, path =>
    if cx = ex ∧ cy = ey then path
    else
      let cx' := if cx ≠ ex then cx + dx else cx
      let cy' := if cy ≠ ey then cy + dy else cy
      if cx' < 0 ∨ cy' < 0 ∨ (widthOf g : Int) ≤ cx' ∨ (g.length : Int) ≤ cy' then path
      else if walkableAt g cx'.toNat cy'.toNat = false then path
      else pathLoop g ex ey dx dy n cx' cy' (path ++ [(cx'.toNat, cy'.toNat)])

/-- `calculate_pathfinding` (src/rust_core/src/lib.rs:16-66): pushes the
start cell unconditionally, computes the step direction by comparing
start to end, and runs the bounded straight-line walk.  Always `Ok`. -/
def calculate_pathfinding (start_x start_y end_x end_y : Nat)
    (walkable_map : List (List Bool)) (max_steps : Option Nat) :
    Except PyErr (List (Nat × Nat)) :=
  Except.ok (pathLoop walkable_map end_x end_y
    (if start_x < end_x then 1 else if end_x < start_x then -1 else 0)
    (if start_y < end_y then 1 else if end_y < start_y then -1 else 0)
    (max_steps.getD 1000) start_x start_y [(start_x, start_y)])

/-- `collision_detection` (src/rust_core/src/lib.rs:70-82): the
strict-inequality AABB test.  Always `Ok`. -/
def collision_detection
    (entity1_x entity1_y entity1_width entity1_height : ℚ)
    (entity2_x entity2_y entity2_width entity2_height : ℚ) :
    Except PyErr Bool :=
  Except.ok (decide
    (entity1_x < entity2_x + entity2_width ∧
     entity1_x + entity1_width > entity2_x ∧
     entity1_y < entity2_y + entity2_height ∧
     entity1_y + entity1_height > entity2_y))

/-- `PhysicsEngine` (src/rust_core/src/lib.rs:138-142): immutable
gravity/friction configuration. -/
structure PhysicsEngine where
  gravity : ℚ
  friction : ℚ
deriving DecidableEq

/-- `PhysicsEngine::new` (src/rust_core/src/lib.rs:146-152) with its
defaults `gravity = 9.8`, `friction = 0.1`. -/
def PhysicsEngine.new (gravity friction : Option ℚ) : PhysicsEngine :=
  { gravity := gravity.getD 9.8, friction := friction.getD 0.1 }

/-- `PhysicsEngine::update_entity` (src/rust_core/src/lib.rs:155-183):
gravity on the vertical velocity only when airborne, sign-clamped
friction on the horizontal velocity only when grounded, then position
update with the new velocity.  No check on `delta_time`; always `Ok`. -/
def PhysicsEngine.update_entity (e : PhysicsEngine)
    (position_x position_y velocity_x velocity_y : ℚ)
    (is_on_ground : Bool) (delta_time : ℚ) :
    Except PyErr ((ℚ × ℚ) × (ℚ × ℚ)) :=
  let new_velocity_y :=
    if is_on_ground then velocity_y else velocity_y + e.gravity * delta_time
  let new_velocity_x :=
    if is_on_ground then
      (if velocity_x > 0 then max (velocity_x - e.friction * delta_time) 0
       else if velocity_x < 0 then min (velocity_x + e.friction * delta_time) 0
       else velocity_x)
    else velocity_x
  Except.ok ((position_x + new_velocity_x * delta_time,
              position_y + new_velocity_y * delta_time),
             (new_velocity_x, new_velocity_y))

/-- The `for _ in 0..time_steps` loop of `calculate_projectile_path`
(src/rust_core/src/lib.rs:201-213): drag on the horizontal velocity,
gravity on the vertical velocity, then position update and push. -/
def projLoop (g dt : ℚ) :
    Nat → ℚ × ℚ → ℚ × ℚ → List (ℚ × ℚ) → List (ℚ × ℚ)
  | 0, _, _, path => path
  | n + 1, (px, py), (vx, vy), path =>
    let vx' := vx * (1 - 0.01 * dt)
    let vy' := vy + g * dt
    let px' := px + vx' * dt
    let py' := py + vy' * dt
    projLoop g dt n (px', py') (vx', vy') (path ++ [(px', py')])

/-- `PhysicsEngine::calculate_projectile_path`
(src/rust_core/src/lib.rs:186-216): pushes the start position, then
runs the drag/gravity stepping loop.  Always `Ok`. -/
def PhysicsEngine.calculate_projectile_path (e : PhysicsEngine)
    (start_x start_y velocity_x velocity_y : ℚ)
    (time_steps : Nat) (delta_time : ℚ) :
    Except PyErr (List (ℚ × ℚ)) :=
  Except.ok (projLoop e.gravity delta_time time_steps
    (start_x, start_y) (velocity_x, velocity_y) [(start_x, start_y)])

/-- 8-adjacency of grid cells: distinct, and each coordinate differs by
at most 1 (the spec's notion for consecutive path elements). -/
def adj8 (a b : Nat × Nat) : Prop :=
  a ≠ b ∧ ((a.1 : Int) - b.1).natAbs ≤ 1 ∧ ((a.2 : Int) - b.2).natAbs ≤ 1

instance : DecidableRel adj8 := fun a b => by
  unfold adj8; infer_instance

/-- `getD` on a replicated list returns the replicated element at every
index below the length. -/
theorem getD_replicate {α : Type} (a d : α) :
    ∀ (n i : Nat), i < n → (List.replicate n a).getD i d = a := by
  intro n
  induction n with
  | zero => omega
  | succ n ih =>
    intro i hi
    cases i with
    | zero => rfl
    | succ i =>
      simpa [List.replicate_succ, List.getD_cons_succ] using ih i (by omega)

/-- The width the source's bounds check sees on a replicated
(rectangular, all-walkable) grid. -/
theorem widthOf_replicate (w h : Nat) (hh : 0 < h) :
    widthOf (List.replicate h (List.replicate w true)) = w := by
  cases h with
  | zero => omega
  | succ n => simp [widthOf, List.replicate_succ]

/-- Every in-bounds cell of a replicated all-`true` grid is walkable. -/
theorem walkableAt_replicate (w h x y : Nat) (hx : x < w) (hy : y < h) :
    walkableAt (List.replicate h (List.replicate w true)) x y = true := by
  unfold walkableAt
  rw [getD_replicate _ _ _ _ hy, getD_replicate _ _ _ _ hx]

/-- Once the current cell equals the end cell the loop stops at once. -/
theorem pathLoop_at_end (g : List (List Bool)) (ex ey dx dy : Int) (n : Nat)
    (path : List (Nat × Nat)) :
    pathLoop g ex ey dx dy n ex ey path = path := by
  cases n with
  | zero => rfl
  | succ n => simp [pathLoop]

/-- The loop only appends cells, and every appended cell passed the
source's boundary check and walkability check. -/
theorem pathLoop_shape (g : List (List Bool)) (ex ey dx dy : Int) :
    ∀ (n : Nat) (cx cy : Int) (path : List (Nat × Nat)),
      ∃ l, pathLoop g ex ey dx dy n cx cy path = path ++ l ∧
        ∀ c ∈ l, c.1 < widthOf g ∧ c.2 < g.length ∧ walkableAt g c.1 c.2 = true := by
  intro n
  induction n with
  | zero => exact fun cx cy path => ⟨[], by simp [pathLoop]⟩
  | succ n ih =>
    intro cx cy path
    by_cases hend : cx = ex ∧ cy = ey
    · exact ⟨[], by simp [pathLoop, hend]⟩
    · simp only [pathLoop, if_neg hend]
      set cx' := if cx ≠ ex then cx + dx else cx with hcx'
      set cy' := if cy ≠ ey then cy + dy else cy with hcy'
      by_cases hb : cx' < 0 ∨ cy' < 0 ∨ (widthOf g : Int) ≤ cx' ∨ (g.length : Int) ≤ cy'
      · exact ⟨[], by simp [if_pos hb]⟩
      · rw [if_neg hb]
        by_cases hw : walkableAt g cx'.toNat cy'.toNat = false
        · exact ⟨[], by simp [if_pos hw]⟩
        · rw [if_neg hw]
          obtain ⟨l, hl, hprop⟩ := ih cx' cy' (path ++ [(cx'.toNat, cy'.toNat)])
          refine ⟨(cx'.toNat, cy'.toNat) :: l, ?_, ?_⟩
          · rw [hl, List.append_assoc]; rfl
          · intro c hc
            rcases List.mem_cons.mp hc with rfl | hc
            · push_neg at hb
              obtain ⟨h1, h2, h3, h4⟩ := hb
              refine ⟨by omega, by omega, ?_⟩
              simpa using hw
            · exact hprop c hc

/-- A singleton step of the walk moves each coordinate by at most one
and changes the cell, so appended cells chain by 8-adjacency. -/
theorem pathLoop_chain (g : List (List Bool)) (ex ey dx dy : Int)
    (hdx : dx.natAbs ≤ 1) (hdy : dy.natAbs ≤ 1) :
    ∀ (n : Nat) (cx cy : Int) (path : List (Nat × Nat)),
      (dx = 0 → cx = ex) → (dy = 0 → cy = ey) → 0 ≤ cx → 0 ≤ cy →
      path.getLast? = some (cx.toNat, cy.toNat) → List.Chain' adj8 path →
      List.Chain' adj8 (pathLoop g ex ey dx dy n cx cy path) := by
  intro n
  induction n with
  | zero => intro cx cy path _ _ _ _ _ hchain; simpa [pathLoop] using hchain
  | succ n ih =>
    intro cx cy path hx hy hcx hcy hlast hchain
    by_cases hend : cx = ex ∧ cy = ey
    · simpa [pathLoop, hend] using hchain
    · simp only [pathLoop, if_neg hend]
      set cx' := if cx ≠ ex then cx + dx else cx with hcx'
      set cy' := if cy ≠ ey then cy + dy else cy with hcy'
      have hxval : (cx' = cx + dx ∧ cx ≠ ex) ∨ (cx' = cx ∧ cx = ex) := by
        by_cases hxe : cx = ex
        · right; exact ⟨by simp [hcx', hxe], hxe⟩
        · left; exact ⟨by simp [hcx', hxe], hxe⟩
      have hyval : (cy' = cy + dy ∧ cy ≠ ey) ∨ (cy' = cy ∧ cy = ey) := by
        by_cases hye : cy = ey
        · right; exact ⟨by simp [hcy', hye], hye⟩
        · left; exact ⟨by simp [hcy', hye], hye⟩
      by_cases hb : cx' < 0 ∨ cy' < 0 ∨ (widthOf g : Int) ≤ cx' ∨ (g.length : Int) ≤ cy'
      · simpa [if_pos hb] using hchain
      · rw [if_neg hb]
        by_cases hw : walkableAt g cx'.toNat cy'.toNat = false
        · simpa [if_pos hw] using hchain
        · rw [if_neg hw]
          push_neg at hb
          obtain ⟨hb1, hb2, hb3, hb4⟩ := hb
          have hdx0 : dx = 0 → cx' = cx := by
            intro h0; rcases hxval with ⟨h, _⟩ | ⟨h, _⟩ <;> omega
          have hdy0 : dy = 0 → cy' = cy := by
            intro h0; rcases hyval with ⟨h, _⟩ | ⟨h, _⟩ <;> omega
          have hadj : adj8 (cx.toNat, cy.toNat) (cx'.toNat, cy'.toNat) := by
            refine ⟨?_, ?_, ?_⟩
            · intro hcontra
              rw [Prod.mk.injEq] at hcontra
              obtain ⟨hc1, hc2⟩ := hcontra
              rcases hxval with ⟨h, hne⟩ | ⟨h, heqx⟩ <;>
                rcases hyval with ⟨h', hne'⟩ | ⟨h', heqy⟩
              · have := hx; have := hy; omega
              · have := hx; omega
              · have := hy; omega
              · exact hend ⟨heqx, heqy⟩
            · rcases hxval with ⟨h, _⟩ | ⟨h, _⟩ <;> simp <;> omega
            · rcases hyval with ⟨h, _⟩ | ⟨h, _⟩ <;> simp <;> omega
          apply ih cx' cy' (path ++ [(cx'.toNat, cy'.toNat)])
          · intro h0
            rcases hxval with ⟨h, hne⟩ | ⟨h, heqx⟩
            · exfalso; exact hne (hx h0)
            · omega
          · intro h0
            rcases hyval with ⟨h, hne⟩ | ⟨h, heqy⟩
            · exfalso; exact hne (hy h0)
            · omega
          · omega
          · omega
          · simp
          · refine List.Chain'.append hchain (by simp) ?_
            intro a ha b hb
            rw [hlast] at ha
            simp at ha hb
            rw [← ha, ← hb]
            exact hadj

set_option maxHeartbeats 1000000 in
/-- On an all-walkable rectangular grid, with the step directions
pointing from the current cell toward the in-bounds end cell, every
iteration of the walk pushes exactly one cell until either the
Chebyshev distance is exhausted or the fuel (step budget) runs out. -/
theorem pathLoop_len_clear (w h : Nat) (ex ey dx dy : Int)
    (hexw : 0 ≤ ex ∧ ex < (w : Int)) (heyh : 0 ≤ ey ∧ ey < (h : Int)) :
    ∀ (n : Nat) (cx cy : Int) (path : List (Nat × Nat)),
      0 ≤ cx → cx < (w : Int) → 0 ≤ cy → cy < (h : Int) →
      (dx = 1 → cx ≤ ex) → (dx = -1 → ex ≤ cx) → (dx = 1 ∨ dx = -1 ∨ dx = 0) →
      (dx = 0 → cx = ex) →
      (dy = 1 → cy ≤ ey) → (dy = -1 → ey ≤ cy) → (dy = 1 ∨ dy = -1 ∨ dy = 0) →
      (dy = 0 → cy = ey) →
      (pathLoop (List.replicate h (List.replicate w true)) ex ey dx dy n cx cy path).length
        = path.length + min n (max (ex - cx).natAbs (ey - cy).natAbs) := by
  intro n
  induction n with
  | zero => intro cx cy path _ _ _ _ _ _ _ _ _ _ _ _; simp [pathLoop]
  | succ n ih =>
    intro cx cy path hcx0 hcxw hcy0 hcyh hdx1 hdxm1 hdxr hdx0 hdy1 hdym1 hdyr hdy0
    by_cases hend : cx = ex ∧ cy = ey
    · obtain ⟨h1, h2⟩ := hend
      subst h1; subst h2
      simp [pathLoop]
    · simp only [pathLoop, if_neg hend]
      set cx' := if cx ≠ ex then cx + dx else cx with hcx'
      set cy' := if cy ≠ ey then cy + dy else cy with hcy'
      have hh : 0 < h := by omega
      have hxcase : (dx = 1 ∧ cx' = cx + 1 ∧ cx < ex) ∨
          (dx = -1 ∧ cx' = cx - 1 ∧ ex < cx) ∨ (cx' = cx ∧ cx = ex) := by
        by_cases hxe : cx = ex
        · right; right; exact ⟨by simp [hcx', hxe], hxe⟩
        · have hv : cx' = cx + dx := by simp [hcx', hxe]
          rcases hdxr with hc | hc | hc
          · exact Or.inl ⟨hc, by omega, by have := hdx1 hc; omega⟩
          · exact Or.inr (Or.inl ⟨hc, by omega, by have := hdxm1 hc; omega⟩)
          · exact absurd (hdx0 hc) hxe
      have hycase : (dy = 1 ∧ cy' = cy + 1 ∧ cy < ey) ∨
          (dy = -1 ∧ cy' = cy - 1 ∧ ey < cy) ∨ (cy' = cy ∧ cy = ey) := by
        by_cases hye : cy = ey
        · right; right; exact ⟨by simp [hcy', hye], hye⟩
        · have hv : cy' = cy + dy := by simp [hcy', hye]
          rcases hdyr with hc | hc | hc
          · exact Or.inl ⟨hc, by omega, by have := hdy1 hc; omega⟩
          · exact Or.inr (Or.inl ⟨hc, by omega, by have := hdym1 hc; omega⟩)
          · exact absurd (hdy0 hc) hye
      clear hdx1 hdxm1 hdx0 hdy1 hdym1 hdy0 hcx' hcy'
      have hxfact : (cx' = cx + 1 ∧ cx < ex ∧ cx ≤ cx') ∨
          (cx' = cx - 1 ∧ ex < cx) ∨ (cx' = cx ∧ cx = ex) := by
        rcases hxcase with ⟨_, h1, h2⟩ | ⟨_, h1, h2⟩ | ⟨h1, h2⟩
        · exact Or.inl ⟨h1, h2, by omega⟩
        · exact Or.inr (Or.inl ⟨h1, h2⟩)
        · exact Or.inr (Or.inr ⟨h1, h2⟩)
      have hyfact : (cy' = cy + 1 ∧ cy < ey ∧ cy ≤ cy') ∨
          (cy' = cy - 1 ∧ ey < cy) ∨ (cy' = cy ∧ cy = ey) := by
        rcases hycase with ⟨_, h1, h2⟩ | ⟨_, h1, h2⟩ | ⟨h1, h2⟩
        · exact Or.inl ⟨h1, h2, by omega⟩
        · exact Or.inr (Or.inl ⟨h1, h2⟩)
        · exact Or.inr (Or.inr ⟨h1, h2⟩)
      have hx'0 : 0 ≤ cx' := by rcases hxfact with ⟨h1, h2, _⟩ | ⟨h1, h2⟩ | ⟨h1, h2⟩ <;> omega
      have hx'w : cx' < (w : Int) := by rcases hxfact with ⟨h1, h2, _⟩ | ⟨h1, h2⟩ | ⟨h1, h2⟩ <;> omega
      have hy'0 : 0 ≤ cy' := by rcases hyfact with ⟨h1, h2, _⟩ | ⟨h1, h2⟩ | ⟨h1, h2⟩ <;> omega
      have hy'h : cy' < (h : Int) := by rcases hyfact with ⟨h1, h2, _⟩ | ⟨h1, h2⟩ | ⟨h1, h2⟩ <;> omega
      have hguard : ¬(cx' < 0 ∨ cy' < 0 ∨
          ((widthOf (List.replicate h (List.replicate w true))) : Int) ≤ cx' ∨
          ((List.replicate h (List.replicate w true)).length : Int) ≤ cy') := by
        rw [widthOf_replicate w h hh, List.length_replicate]
        omega
      rw [if_neg hguard]
      have hwk : walkableAt (List.replicate h (List.replicate w true))
          cx'.toNat cy'.toNat = true := by
        apply walkableAt_replicate <;> omega
      rw [if_neg (by simp [hwk])]
      rw [ih cx' cy' (path ++ [(cx'.toNat, cy'.toNat)])
            hx'0 hx'w hy'0 hy'h
            (fun h0 => by rcases hxcase with ⟨h1, h2, h3⟩ | ⟨h1, h2, h3⟩ | ⟨h1, h2⟩ <;> omega)
            (fun h0 => by rcases hxcase with ⟨h1, h2, h3⟩ | ⟨h1, h2, h3⟩ | ⟨h1, h2⟩ <;> omega)
            hdxr
            (fun h0 => by rcases hxcase with ⟨h1, h2, h3⟩ | ⟨h1, h2, h3⟩ | ⟨h1, h2⟩ <;> omega)
            (fun h0 => by rcases hycase with ⟨h1, h2, h3⟩ | ⟨h1, h2, h3⟩ | ⟨h1, h2⟩ <;> omega)
            (fun h0 => by rcases hycase with ⟨h1, h2, h3⟩ | ⟨h1, h2, h3⟩ | ⟨h1, h2⟩ <;> omega)
            hdyr
            (fun h0 => by rcases hycase with ⟨h1, h2, h3⟩ | ⟨h1, h2, h3⟩ | ⟨h1, h2⟩ <;> omega)]
      rw [List.length_append]
      have hnotboth : ¬(cx = ex ∧ cy = ey) := hend
      clear hxcase hycase hguard hwk ih
      rcases hxfact with ⟨h1, h2, _⟩ | ⟨h1, h2⟩ | ⟨h1, h2⟩ <;>
        rcases hyfact with ⟨h1', h2', _⟩ | ⟨h1', h2'⟩ | ⟨h1', h2'⟩ <;>
        simp only [List.length_cons, List.length_nil] <;>
        omega

/-- Claim C1 (amended): every coordinate of a path returned by
`calculate_pathfinding` other than the unvalidated first element (which
always equals the start) is within the grid bounds and walkable.  The
claim as stated fails for the first element (counterexample below). -/
theorem findPath_tail_inbounds_walkable
    (sx sy ex ey : Nat) (g : List (List Bool)) (ms : Option Nat)
    (p : List (Nat × Nat))
    (hp : calculate_pathfinding sx sy ex ey g ms = Except.ok p) :
    ∀ c ∈ p, c = (sx, sy) ∨
      (c.1 < widthOf g ∧ c.2 < g.length ∧ walkableAt g c.1 c.2 = true) := by
  simp only [calculate_pathfinding, Except.ok.injEq] at hp
  obtain ⟨l, hl, hprop⟩ := pathLoop_shape g (ex : Int) (ey : Int)
    (if sx < ex then (1 : Int) else if ex < sx then -1 else 0)
    (if sy < ey then (1 : Int) else if ey < sy then -1 else 0)
    (ms.getD 1000) (sx : Int) (sy : Int) [(sx, sy)]
  rw [← hp, hl]
  intro c hc
  rcases List.mem_append.mp hc with hc | hc
  · left; simpa using hc
  · right; exact hprop c hc

/-- Witness for C1's amended theorem at a concrete query. -/
theorem findPath_tail_inbounds_walkable_witness :
    ((0, 0) : Nat × Nat) = (0, 0) ∨
      (0 < widthOf [[true]] ∧ 0 < List.length [[true]] ∧
        walkableAt [[true]] 0 0 = true) :=
  findPath_tail_inbounds_walkable 0 0 0 0 [[true]] none [(0, 0)] (by decide)
    (0, 0) (by decide)

/-- Counterexample to C1 as stated: with start = end = (2,3), far out of
the 1×1 grid's bounds, the returned path still contains (2,3) as its
first element, which is neither in bounds nor walkable. -/
theorem findPath_start_not_validated :
    calculate_pathfinding 2 3 2 3 [[true]] none = Except.ok [(2, 3)] ∧
      widthOf [[true]] = 1 ∧ List.length [[true]] = 1 := by decide

/-- Claim C2 (amended): whenever `calculate_pathfinding` returns a path
(it always does), its first element equals the start coordinate and
every pair of consecutive elements is 8-adjacent and distinct; but the
last element need not equal the end coordinate (counterexample below:
the walk is truncated at obstacles, boundaries, or the step budget). -/
theorem findPath_head_and_adjacency
    (sx sy ex ey : Nat) (g : List (List Bool)) (ms : Option Nat)
    (p : List (Nat × Nat))
    (hp : calculate_pathfinding sx sy ex ey g ms = Except.ok p) :
    p.head? = some (sx, sy) ∧ List.Chain' adj8 p := by
  simp only [calculate_pathfinding, Except.ok.injEq] at hp
  constructor
  · obtain ⟨l, hl, -⟩ := pathLoop_shape g (ex : Int) (ey : Int)
      (if sx < ex then (1 : Int) else if ex < sx then -1 else 0)
      (if sy < ey then (1 : Int) else if ey < sy then -1 else 0)
      (ms.getD 1000) (sx : Int) (sy : Int) [(sx, sy)]
    rw [← hp, hl]
    rfl
  · rw [← hp]
    refine pathLoop_chain g (ex : Int) (ey : Int)
      (if sx < ex then (1 : Int) else if ex < sx then -1 else 0)
      (if sy < ey then (1 : Int) else if ey < sy then -1 else 0)
      ?_ ?_ (ms.getD 1000) (sx : Int) (sy : Int) [(sx, sy)]
      ?_ ?_ (by omega) (by omega) (by simp) (List.chain'_singleton _)
    · split_ifs <;> decide
    · split_ifs <;> decide
    · intro h0; split_ifs at h0 <;> omega
    · intro h0; split_ifs at h0 <;> omega

/-- Witness for C2's amended theorem at a concrete query. -/
theorem findPath_head_and_adjacency_witness :
    ([(0, 0), (1, 1)] : List (Nat × Nat)).head? = some (0, 0) ∧
      List.Chain' adj8 [(0, 0), (1, 1)] :=
  findPath_head_and_adjacency 0 0 1 1 [[true, false], [false, true]] none
    [(0, 0), (1, 1)] (by decide)

/-- Counterexample to C2 as stated: the walk toward the unwalkable end
cell (1,0) returns successfully with a path whose last element (0,0) is
not the requested end. -/
theorem findPath_last_not_end :
    calculate_pathfinding 0 0 1 0 [[true, false]] none = Except.ok [(0, 0)] ∧
      ([(0, 0)] : List (Nat × Nat)).getLast? ≠ some (1, 0) := by decide

/-- Claim C3 is violated: with the start (= end) cell unwalkable,
`calculate_pathfinding` returns a successful path containing that very
cell instead of an UnwalkableEndpoint/InvalidCoordinate error. -/
theorem findPath_no_error_on_unwalkable_start :
    calculate_pathfinding 0 0 0 0 [[false]] none = Except.ok [(0, 0)] ∧
      walkableAt [[false]] 0 0 = false := by decide

/-- Claim C4 is violated: on the 2×2 grid with (1,0) and (0,1)
unwalkable, `calculate_pathfinding` takes the corner-cutting diagonal
step and returns the consecutive pair (0,0),(1,1). -/
theorem findPath_corner_cutting_eval :
    calculate_pathfinding 0 0 1 1 [[true, false], [false, true]] none =
        Except.ok [(0, 0), (1, 1)] ∧
      walkableAt [[true, false], [false, true]] 1 0 = false ∧
      walkableAt [[true, false], [false, true]] 0 1 = false := by decide

/-- Claim C7 is violated: `update_entity` performs no validation of
`delta_time`; at `delta_time = -1 ≤ 0` it returns a position/velocity
result, not an InvalidParameter error. -/
theorem update_entity_no_error_on_nonpositive_dt :
    (PhysicsEngine.new none none).update_entity 0 0 0 0 true (-1) =
      Except.ok ((0, 0), (0, 0)) := by
  norm_num [PhysicsEngine.new, PhysicsEngine.update_entity]

/-- The per-axis step direction computed by `calculate_pathfinding`
points from start toward end: its possible values and what each value
implies about the endpoint order. -/
theorem stepDir_spec (a b : Nat) :
    ((if a < b then (1 : Int) else if b < a then -1 else 0) = 1 → (a : Int) ≤ b) ∧
    ((if a < b then (1 : Int) else if b < a then -1 else 0) = -1 → (b : Int) ≤ a) ∧
    ((if a < b then (1 : Int) else if b < a then -1 else 0) = 1 ∨
      (if a < b then (1 : Int) else if b < a then -1 else 0) = -1 ∨
      (if a < b then (1 : Int) else if b < a then -1 else 0) = 0) ∧
    ((if a < b then (1 : Int) else if b < a then -1 else 0) = 0 → (a : Int) = b) := by
  by_cases h1 : a < b
  · rw [if_pos h1]
    exact ⟨fun _ => by omega, fun h => by omega, Or.inl rfl, fun h => by omega⟩
  · by_cases h2 : b < a
    · rw [if_neg h1, if_pos h2]
      exact ⟨fun h => by omega, fun _ => by omega, Or.inr (Or.inl rfl), fun h => by omega⟩
    · rw [if_neg h1, if_neg h2]
      exact ⟨fun h => by omega, fun h => by omega, Or.inr (Or.inr rfl), fun _ => by omega⟩

/-- Claim C8 (amended): on an all-walkable rectangular grid with start
and end in bounds, the returned path has exactly Chebyshev(start, end)
+ 1 coordinates provided the Chebyshev distance does not exceed the
step budget (`max_steps`, default 1000); in particular the start = end
query returns the single-element path.  Without the budget proviso the
claim fails (counterexample below). -/
theorem findPath_clear_grid_length
    (sx sy ex ey w h : Nat) (ms : Option Nat) (p : List (Nat × Nat))
    (hsx : sx < w) (hsy : sy < h) (hex : ex < w) (hey : ey < h)
    (hbudget : max ((ex : Int) - sx).natAbs ((ey : Int) - sy).natAbs ≤ ms.getD 1000)
    (hp : calculate_pathfinding sx sy ex ey
        (List.replicate h (List.replicate w true)) ms = Except.ok p) :
    p.length = max ((ex : Int) - sx).natAbs ((ey : Int) - sy).natAbs + 1 ∧
      (sx = ex → sy = ey → p = [(sx, sy)]) := by
  simp only [calculate_pathfinding, Except.ok.injEq] at hp
  constructor
  · obtain ⟨hdx1, hdxm1, hdxr, hdx0⟩ := stepDir_spec sx ex
    obtain ⟨hdy1, hdym1, hdyr, hdy0⟩ := stepDir_spec sy ey
    have hlen := pathLoop_len_clear w h (ex : Int) (ey : Int)
      (if sx < ex then (1 : Int) else if ex < sx then -1 else 0)
      (if sy < ey then (1 : Int) else if ey < sy then -1 else 0)
      ⟨by omega, by omega⟩ ⟨by omega, by omega⟩
      (ms.getD 1000) (sx : Int) (sy : Int) [(sx, sy)]
      (by omega) (by omega) (by omega) (by omega)
      hdx1 hdxm1 hdxr hdx0 hdy1 hdym1 hdyr hdy0
    rw [← hp, hlen]
    simp only [List.length_singleton]
    omega
  · intro h1 h2
    subst h1; subst h2
    rw [← hp]
    exact pathLoop_at_end _ _ _ _ _ _ _

/-- Witness for C8's amended theorem at a concrete query. -/
theorem findPath_clear_grid_length_witness :
    ([(0, 0), (1, 1)] : List (Nat × Nat)).length =
        max ((1 : Int) - 0).natAbs ((1 : Int) - 0).natAbs + 1 ∧
      ((0 : Nat) = 1 → (0 : Nat) = 1 →
        ([(0, 0), (1, 1)] : List (Nat × Nat)) = [(0, 0)]) :=
  findPath_clear_grid_length 0 0 1 1 2 2 none [(0, 0), (1, 1)]
    (by decide) (by decide) (by decide) (by decide) (by decide) (by decide)

/-- Counterexample to C8 as stated: the step budget truncates the
walk.  With `max_steps = some 2`, the walk from (0,0) to (3,0) on an
all-walkable 1×4 grid returns a path of 3 elements instead of
Chebyshev + 1 = 4; the default budget of 1000 truncates in the same way
once the Chebyshev distance exceeds 1000. -/
theorem findPath_budget_truncates_length :
    calculate_pathfinding 0 0 3 0 [[true, true, true, true]] (some 2) =
        Except.ok [(0, 0), (1, 0), (2, 0)] ∧
      ([(0, 0), (1, 0), (2, 0)] : List (Nat × Nat)).length ≠
        max ((3 : Int) - 0).natAbs ((0 : Int) - 0).natAbs + 1 := by decide

/-- Claim C9: `collision_detection` uses strict inequalities — two
boxes whose edges merely touch (one box's max coordinate equals the
other's min coordinate on some axis) do not overlap — and it is
symmetric in its two boxes and reports a positive-area box as
overlapping itself. -/
theorem collision_detection_strict_sym_refl :
    (∀ ax ay aw ah qx qy qw qh : ℚ,
        (ax + aw = qx ∨ qx + qw = ax ∨ ay + ah = qy ∨ qy + qh = ay) →
        collision_detection ax ay aw ah qx qy qw qh = Except.ok false) ∧
    (∀ ax ay aw ah qx qy qw qh : ℚ,
        collision_detection ax ay aw ah qx qy qw qh =
          collision_detection qx qy qw qh ax ay aw ah) ∧
    (∀ x y w h : ℚ, 0 < w → 0 < h →
        collision_detection x y w h x y w h = Except.ok true) := by
  refine ⟨?_, ?_, ?_⟩
  · intro ax ay aw ah qx qy qw qh htouch
    simp only [collision_detection, Except.ok.injEq, decide_eq_false_iff_not]
    rintro ⟨h1, h2, h3, h4⟩
    rcases htouch with h | h | h | h <;> linarith
  · intro ax ay aw ah qx qy qw qh
    simp only [collision_detection, Except.ok.injEq]
    rw [decide_eq_decide]
    constructor <;> rintro ⟨h1, h2, h3, h4⟩ <;>
      exact ⟨by linarith, by linarith, by linarith, by linarith⟩
  · intro x y w h hw hh
    simp only [collision_detection, Except.ok.injEq, decide_eq_true_eq]
    exact ⟨by linarith, by linarith, by linarith, by linarith⟩

/-- Witness for C9 at concrete boxes: the touching pair (0,0,1,1) and
(1,0,1,1) does not overlap; the positive-area box (0,0,2,3) overlaps
itself. -/
theorem collision_detection_strict_sym_refl_witness :
    collision_detection 0 0 1 1 1 0 1 1 = Except.ok false ∧
      collision_detection 0 0 2 3 0 0 2 3 = Except.ok true :=
  ⟨collision_detection_strict_sym_refl.1 0 0 1 1 1 0 1 1 (Or.inl (by norm_num)),
   collision_detection_strict_sym_refl.2.2 0 0 2 3 (by norm_num) (by norm_num)⟩

/-- Claim C10: with `is_on_ground = false`, `update_entity` returns a
horizontal velocity exactly equal to the input horizontal velocity —
neither friction nor drag is applied while airborne; the drag factor
`1 - 0.01·dt` appears only in `calculate_projectile_path` (second
conjunct, shown at one step). -/
theorem update_entity_airborne_preserves_vx :
    (∀ (e : PhysicsEngine) (px py vx vy dt : ℚ),
        e.update_entity px py vx vy false dt =
          Except.ok ((px + vx * dt, py + (vy + e.gravity * dt) * dt),
                     (vx, vy + e.gravity * dt))) ∧
    (∀ (e : PhysicsEngine) (sx sy vx vy dt : ℚ),
        e.calculate_projectile_path sx sy vx vy 1 dt =
          Except.ok [(sx, sy),
            (sx + vx * (1 - 0.01 * dt) * dt, sy + (vy + e.gravity * dt) * dt)]) := by
  constructor
  · intro e px py vx vy dt
    simp [PhysicsEngine.update_entity]
  · intro e sx sy vx vy dt
    simp [PhysicsEngine.calculate_projectile_path, projLoop]
